import Mathlib

/-!
Verification of the NotebookLM MCP client transport layer.

This file gives a shallow embedding of the codec / transport / recovery /
conversation-cache code of `notebooklm_mcp` (api_client.py, auth.py,
auth_cli.py) and proves the testable properties stated for it.

Modelling conventions:
* Python/JSON values are the inductive `JVal`; the Python value `None` and the
  JSON value `null` are one and the same object in Python, so both are `JVal.null`.
* Integer JSON literals become `JVal.num`; non-integer numeric literals are kept
  exactly as a decimal mantissa/exponent pair `JVal.numE m e` (denoting m * 10^e).
  This is an exact-decimal idealization of Python floats: binary rounding of
  float literals is outside the model's scope.
* Python dicts become association lists in insertion order with unique keys
  maintained by replace-or-append insertion, mirroring dict semantics.
* Strings are compared and measured by code points, as Python does.
* File and network I/O are modelled by passing the transported value explicitly.
-/

set_option maxRecDepth 100000

namespace NotebookLM


/-- JSON values as handled by Python's `json` module.  `null` doubles as the
Python value `None` (they are the same object in Python). -/
inductive JVal where
  | null
  | bool (b : Bool)
  | num (n : Int)
  | numE (m : Int) (e : Int)
  | str (s : String)
  | arr (elems : List JVal)
  | obj (fields : List (String × JVal))
deriving Repr

/-- Python integer value of a bool (`True == 1`, `False == 0`). -/
def pyIntOfBool (b : Bool) : Int := if b then 1 else 0

/-- Equality of the exact decimals m1 * 10^e1 and m2 * 10^e2. -/
def decimalEq (m1 e1 m2 e2 : Int) : Bool :=
  if e1 ≤ e2 then m1 == m2 * 10 ^ (e2 - e1).toNat
  else m1 * 10 ^ (e1 - e2).toNat == m2

mutual

/-- Python `==` on JSON values: numbers (and bools, which are ints in Python)
compare by numeric value across int/float; lists compare elementwise; dicts
are modelled as ordered field lists (the claims never compare two dicts, so
order-sensitivity of this case is unreachable in the properties below). -/
def pyEq : JVal → JVal → Bool
  | .null, .null => true
  | .bool a, .bool b => a == b
  | .bool a, .num n => pyIntOfBool a == n
  | .num n, .bool a => n == pyIntOfBool a
  | .bool a, .numE m e => decimalEq (pyIntOfBool a) 0 m e
  | .numE m e, .bool a => decimalEq m e (pyIntOfBool a) 0
  | .num a, .num b => a == b
  | .num a, .numE m e => decimalEq a 0 m e
  | .numE m e, .num a => decimalEq m e a 0
  | .numE m e, .numE m2 e2 => decimalEq m e m2 e2
  | .str a, .str b => a == b
  | .arr a, .arr b => pyEqList a b
  | .obj a, .obj b => pyEqFields a b
  | _, _ => false

def pyEqList : List JVal → List JVal → Bool
  | [], [] => true
  | a :: l1, b :: l2 => pyEq a b && pyEqList l1 l2
  | _, _ => false

def pyEqFields : List (String × JVal) → List (String × JVal) → Bool
  | [], [] => true
  | (k1, v1) :: l1, (k2, v2) :: l2 => k1 == k2 && pyEq v1 v2 && pyEqFields l1 l2
  | _, _ => false

end


/-! ### Python string helpers (code-point level) -/

/-- Opening brace character, spelled numerically. -/
def obrace : Char := Char.ofNat 123

/-- Closing brace character, spelled numerically. -/
def cbrace : Char := Char.ofNat 125

/-- Apostrophe character. -/
def apos : Char := Char.ofNat 39

/-- Whitespace characters stripped by Python `str.strip` (ASCII subset; the
source only ever strips around JSON/CLI text, which is ASCII-framed). -/
def pyWs (c : Char) : Bool :=
  let n := c.toNat
  n == 32 || n == 9 || n == 10 || n == 13 || n == 11 || n == 12

def pyStripList (cs : List Char) : List Char :=
  ((cs.dropWhile pyWs).reverse.dropWhile pyWs).reverse

/-- Python `str.strip()`. -/
def pyStrip (s : String) : String := String.mk (pyStripList s.data)

/-- Python `s.split("\n")`. -/
def splitLines (s : String) : List String := (s.data.splitOn '\n').map String.mk

/-- Python `s[n:]` (slicing by code points). -/
def pyDrop (s : String) (n : Nat) : String := String.mk (s.data.drop n)

def isDigitCh (c : Char) : Bool := 48 ≤ c.toNat && c.toNat ≤ 57

def digitVal (c : Char) : Nat := c.toNat - 48

def digitsToNat (cs : List Char) : Nat := cs.foldl (fun total d => 10 * total + digitVal d) 0

/-! ### Python `int(...)` on a line

Models `int(line)` as used for byte-count lines: optional surrounding
whitespace (the call sites pre-strip anyway), an optional sign, then ASCII
digit groups separated by single underscores (the CPython literal grammar;
non-ASCII digits are outside the model). -/

def pyIntTail : List Char → Bool
  | [] => true
  | '_' :: c :: rest => isDigitCh c && pyIntTail rest
  | ['_'] => false
  | c :: rest => isDigitCh c && pyIntTail rest

def pyIntDigits : List Char → Bool
  | [] => false
  | c :: rest => isDigitCh c && pyIntTail rest

def pyInt (s : String) : Option Int :=
  let cs := pyStripList s.data
  let (neg, ds) : Bool × List Char :=
    match cs with
    | '-' :: rest => (true, rest)
    | '+' :: rest => (false, rest)
    | rest => (false, rest)
  if pyIntDigits ds then
    let v : Int := digitsToNat (ds.filter (fun c => c != '_'))
    some (if neg then -v else v)
  else none

/-! ### `json.loads` -/

def jsonWsCh (c : Char) : Bool :=
  let n := c.toNat
  n == 32 || n == 9 || n == 10 || n == 13

def skipWs (cs : List Char) : List Char := cs.dropWhile jsonWsCh

def takeDigits (cs : List Char) : List Char × List Char :=
  (cs.takeWhile isDigitCh, cs.dropWhile isDigitCh)

def applySign (neg : Bool) (n : Int) : Int := if neg then -n else n

/-- Finish a numeric literal after mantissa and fraction: optional exponent.
`isFloat` records whether a fraction was present (floats and ints are distinct
values in Python). -/
def finishExp (neg : Bool) (mant : Nat) (shift : Int) (isFloat : Bool)
    (cs : List Char) : Option (JVal × List Char) :=
  match cs with
  | c :: rest =>
    if c == 'e' || c == 'E' then
      let (esign, rest2) : Bool × List Char :=
        match rest with
        | '-' :: r => (true, r)
        | '+' :: r => (false, r)
        | r => (false, r)
      match takeDigits rest2 with
      | ([], _) => none
      | (ed, r) => some (.numE (applySign neg mant) (shift + digitsToNat ed * (if esign then -1 else 1)), r)
    else if isFloat then some (.numE (applySign neg mant) shift, c :: rest)
    else some (.num (applySign neg mant), c :: rest)
  | [] =>
    if isFloat then some (.numE (applySign neg mant) shift, [])
    else some (.num (applySign neg mant), [])

/-- Optional fraction part after the integer part of a numeric literal. -/
def finishNumber (neg : Bool) (ip : Nat) (cs : List Char) : Option (JVal × List Char) :=
  match cs with
  | '.' :: rest =>
    (match takeDigits rest with
     | ([], _) => none
     | (fd, r) => finishExp neg (ip * 10 ^ fd.length + digitsToNat fd) (-(fd.length : Int)) true r)
  | _ => finishExp neg ip 0 false cs

/-- Numeric literal starting at its first digit (strict JSON grammar: a leading
zero is not followed by further digits). -/
def parseNumberTail (neg : Bool) (cs : List Char) : Option (JVal × List Char) :=
  match cs with
  | [] => none
  | c :: rest =>
    if c == '0' then finishNumber neg 0 rest
    else if isDigitCh c then
      let (d, r) := takeDigits rest
      finishNumber neg (digitsToNat (c :: d)) r
    else none

def hexDigitVal (c : Char) : Option Nat :=
  let n := c.toNat
  if 48 ≤ n && n ≤ 57 then some (n - 48)
  else if 97 ≤ n && n ≤ 102 then some (n - 87)
  else if 65 ≤ n && n ≤ 70 then some (n - 55)
  else none

def parseHex4 : List Char → Option (Nat × List Char)
  | c1 :: c2 :: c3 :: c4 :: rest =>
    (match hexDigitVal c1, hexDigitVal c2, hexDigitVal c3, hexDigitVal c4 with
     | some a, some b, some c, some d => some (d + 16 * (c + 16 * (b + 16 * a)), rest)
     | _, _, _, _ => none)
  | _ => none

/-- Body of a JSON string literal, positioned after the opening quote.  Strict
mode as used by `json.loads`: raw control characters are rejected; `\uXXXX`
escapes are decoded, surrogate pairs combined (lone surrogates, which Python
tolerates, are not representable in `Char` and rejected). -/
def parseStringBody (fuel : Nat) (acc : List Char) (cs : List Char) :
    Option (String × List Char) :=
  match fuel with
  | 0 => none
  | fuel + 1 =>
    match cs with
    | [] => none
    | c :: rest =>
      if c == '"' then some (String.mk acc.reverse, rest)
      else if c == '\\' then
        match rest with
        | [] => none
        | e :: rest2 =>
          if e == '"' then parseStringBody fuel ('"' :: acc) rest2
          else if e == '\\' then parseStringBody fuel ('\\' :: acc) rest2
          else if e == '/' then parseStringBody fuel ('/' :: acc) rest2
          else if e == 'b' then parseStringBody fuel (Char.ofNat 8 :: acc) rest2
          else if e == 'f' then parseStringBody fuel (Char.ofNat 12 :: acc) rest2
          else if e == 'n' then parseStringBody fuel ('\n' :: acc) rest2
          else if e == 'r' then parseStringBody fuel ('\r' :: acc) rest2
          else if e == 't' then parseStringBody fuel ('\t' :: acc) rest2
          else if e == 'u' then
            match parseHex4 rest2 with
            | none => none
            | some (n, rest3) =>
              if 55296 ≤ n ∧ n < 56320 then
                match rest3 with
                | '\\' :: 'u' :: rest4 =>
                  (match parseHex4 rest4 with
                   | some (n2, rest5) =>
                     if 56320 ≤ n2 ∧ n2 < 57344 then
                       parseStringBody fuel
                         (Char.ofNat ((n - 55296) * 1024 + (n2 - 56320) + 65536) :: acc) rest5
                     else none
                   | none => none)
                | _ => none
              else if 56320 ≤ n ∧ n < 57344 then none
              else parseStringBody fuel (Char.ofNat n :: acc) rest3
          else none
      else if c.toNat < 0x20 then none
      else parseStringBody fuel (c :: acc) rest

def litMatch : List Char → List Char → Option (List Char)
  | [], r => some r
  | l :: ls, c :: rest => if c == l then litMatch ls rest else none
  | _ :: _, [] => none

/-- Python-dict insertion: replace the value in place if the key is present,
otherwise append. -/
def dictInsert (fields : List (String × JVal)) (k : String) (v : JVal) :
    List (String × JVal) :=
  match fields with
  | [] => [(k, v)]
  | (k2, v2) :: rest =>
    if k2 == k then (k2, v) :: rest else (k2, v2) :: dictInsert rest k v

mutual

/-- One JSON value, fuel-indexed recursive descent (the fuel is an embedding
artifact; `jsonLoads` supplies more than any input can consume). -/
def parseVal (fuel : Nat) (cs : List Char) : Option (JVal × List Char) :=
  match fuel with
  | 0 => none
  | fuel + 1 =>
    match cs with
    | [] => none
    | c :: rest =>
      if c == '"' then
        (match parseStringBody (rest.length + 1) [] rest with
         | some (s, r) => some (.str s, r)
         | none => none)
      else if c == '-' then parseNumberTail true rest
      else if isDigitCh c then parseNumberTail false (c :: rest)
      else if c == '[' then
        (match skipWs rest with
         | ']' :: r2 => some (.arr [], r2)
         | r => parseArrElems fuel [] r)
      else if c == obrace then
        (match skipWs rest with
         | c2 :: r2 => if c2 == cbrace then some (.obj [], r2) else parseObjFields fuel [] (c2 :: r2)
         | [] => none)
      else if c == 't' then (litMatch ['r', 'u', 'e'] rest).map (fun r => (.bool true, r))
      else if c == 'f' then (litMatch ['a', 'l', 's', 'e'] rest).map (fun r => (.bool false, r))
      else if c == 'n' then (litMatch ['u', 'l', 'l'] rest).map (fun r => (.null, r))
      else none

def parseArrElems (fuel : Nat) (acc : List JVal) (cs : List Char) :
    Option (JVal × List Char) :=
  match fuel with
  | 0 => none
  | fuel + 1 =>
    match parseVal fuel (skipWs cs) with
    | none => none
    | some (v, rest) =>
      match skipWs rest with
      | ',' :: rest2 => parseArrElems fuel (v :: acc) rest2
      | ']' :: rest2 => some (.arr (v :: acc).reverse, rest2)
      | _ => none

def parseObjFields (fuel : Nat) (acc : List (String × JVal)) (cs : List Char) :
    Option (JVal × List Char) :=
  match fuel with
  | 0 => none
  | fuel + 1 =>
    match skipWs cs with
    | '"' :: rest =>
      (match parseStringBody (rest.length + 1) [] rest with
       | none => none
       | some (k, rest2) =>
         match skipWs rest2 with
         | ':' :: rest3 =>
           (match parseVal fuel (skipWs rest3) with
            | none => none
            | some (v, rest4) =>
              match skipWs rest4 with
              | ',' :: rest5 => parseObjFields fuel (dictInsert acc k v) rest5
              | c :: rest5 =>
                if c == cbrace then some (.obj (dictInsert acc k v), rest5) else none
              | [] => none)
         | _ => none)
    | _ => none

end


/-- Python `json.loads`: one JSON document, surrounding whitespace allowed,
trailing junk rejected.  (The non-standard `NaN`/`Infinity` extensions Python
accepts are outside the model.) -/
def jsonLoads (s : String) : Option JVal :=
  match parseVal (4 * s.data.length + 16) (skipWs s.data) with
  | some (v, rest) => if skipWs rest = [] then some v else none
  | none => none

/-! ### `NotebookLMClient._parse_response`

The anti-hijacking prefix is the four characters `)]}` followed by an
apostrophe; a line parsing as a bare integer announces a byte count, and the
following raw line is then attempted as JSON; any other non-blank line is
attempted as JSON directly; lines that fail to parse are skipped. -/

def antiHijack : List Char := [')', ']', cbrace, apos]

/-- Strip the anti-XSSI prefix when present (`response_text[4:]`). -/
def stripAntiHijack (s : String) : String :=
  if antiHijack.isPrefixOf s.data then pyDrop s 4 else s

/-- The `while i < len(lines)` loop of `_parse_response` (`line` stands for
`lines[i].strip()`, written out as `pyStrip l`). -/
def parseChunkLines : List String → List JVal
  | [] => []
  | l :: rest =>
    if pyStrip l = "" then parseChunkLines rest
    else
      match pyInt (pyStrip l) with
      | some _ =>
        (match rest with
         | [] => []
         | nxt :: rest2 =>
           match jsonLoads nxt with
           | some v => v :: parseChunkLines rest2
           | none => parseChunkLines rest2)
      | none =>
        (match jsonLoads (pyStrip l) with
         | some v => v :: parseChunkLines rest
         | none => parseChunkLines rest)

/-- Models `NotebookLMClient._parse_response`. -/
def parseResponse (s : String) : List JVal :=
  parseChunkLines (splitLines (pyStrip (stripAntiHijack s)))

/-! ### `NotebookLMClient._extract_rpc_result` -/

/-- Models `xs[i]` where the caller has checked `i < len(xs)`; out-of-range reads
never occur on the guarded paths below. -/
def jGet (xs : List JVal) (i : Nat) : JVal := xs.getD i .null

/-- Models `isinstance(item, list) and len(item) >= 3 and item[0] == "wrb.fr" and
item[1] == rpc_id`. -/
def isSentinelMatch (rpcId : String) (item : JVal) : Bool :=
  match item with
  | .arr fields =>
    decide (3 ≤ fields.length) && pyEq (jGet fields 0) (.str "wrb.fr")
      && pyEq (jGet fields 1) (.str rpcId)
  | _ => false

/-- Models `len(item) > 6 and item[6] == "generic" and isinstance(item[5], list) and
16 in item[5]` — the soft authentication-error signature. -/
def isSoftAuthSig (item : JVal) : Bool :=
  match item with
  | .arr fields =>
    decide (6 < fields.length) && pyEq (jGet fields 6) (.str "generic")
      && (match jGet fields 5 with
          | .arr codes => codes.any (fun x => pyEq x (.num 16))
          | _ => false)
  | _ => false

/-- Result of `_extract_rpc_result`: either the `AuthenticationError` raise or
a returned value (`.result .null` is Python `return None`). -/
inductive ExtractResult where
  | authError
  | result (v : JVal)

/-- Models `item[2]` handling: a string payload is parsed as JSON, falling back to
the raw string; a non-string payload is returned as-is. -/
def decodePayload (v : JVal) : JVal :=
  match v with
  | .str s =>
    (match jsonLoads s with
     | some r => r
     | none => .str s)
  | v => v

/-- Payload extraction from a matched item (a matched item is always an
array; the fallback branch is unreachable). -/
def itemPayload : JVal → JVal
  | .arr fields => decodePayload (jGet fields 2)
  | v => v

/-- The inner `for item in chunk` loop: first sentinel match wins; a matching
soft-error signature raises. -/
def extractScanItems (rpcId : String) : List JVal → Option ExtractResult
  | [] => none
  | item :: rest =>
    if isSentinelMatch rpcId item then
      if isSoftAuthSig item then some .authError
      else some (.result (itemPayload item))
    else extractScanItems rpcId rest

/-- Items iterated by the outer loop: `if isinstance(chunk, list)` guards the
inner loop, i.e. a non-list chunk contributes no items. -/
def chunkItems : JVal → List JVal
  | .arr items => items
  | _ => []

/-- The outer `for chunk in parsed_response` loop. -/
def extractScanChunks (rpcId : String) : List JVal → Option ExtractResult
  | [] => none
  | chunk :: rest =>
    match extractScanItems rpcId (chunkItems chunk) with
    | some r => some r
    | none => extractScanChunks rpcId rest

/-- Models `NotebookLMClient._extract_rpc_result` (falling off the loops returns
Python `None`). -/
def extractRpcResult (parsed : List JVal) (rpcId : String) : ExtractResult :=
  (extractScanChunks rpcId parsed).getD (.result .null)

/-- All items matching the sentinel plus rpcId, in stream (scan) order. -/
def matchingItems (parsed : List JVal) (rpcId : String) : List JVal :=
  (parsed.map (fun chunk => (chunkItems chunk).filter (isSentinelMatch rpcId))).flatten

/-- Verdict of the scan on the item it stops at. -/
def firstMatchVerdict (item : JVal) : ExtractResult :=
  if isSoftAuthSig item then .authError else .result (itemPayload item)

/-! ### Claims C1, C8, C9 -/

/-- The soft authentication-error signature item for rpcId `r1`. -/
def softSigR1 : JVal :=
  .arr [.str "wrb.fr", .str "r1", .null, .null, .null, .arr [.num 16], .str "generic"]

/-- An ordinary matching item for rpcId `r1` carrying payload `"7"`. -/
def goodR1 : JVal := .arr [.str "wrb.fr", .str "r1", .str "7", .null]

/-- Frames where a plain result frame for `r1` precedes the soft-error frame. -/
def framesGoodThenSig : List JVal := [.arr [goodR1], .arr [softSigR1]]

/-- Frames containing only the soft-error signature frame for `r1`. -/
def framesSigOnly : List JVal := [.arr [softSigR1]]

/-- The soft-error signature item for rpcId `r9`. -/
def softSigR9 : JVal :=
  .arr [.str "wrb.fr", .str "r9", .null, .null, .null, .arr [.num 16], .str "generic"]

/-- An ordinary matching item for rpcId `r9` carrying payload `"7"`. -/
def goodR9 : JVal := .arr [.str "wrb.fr", .str "r9", .str "7", .null]

/-- Frames for `r9` where the soft-error signature appears only after a plain
matching frame. -/
def framesNine : List JVal := [.arr [goodR9], .arr [softSigR9]]

/-! ### `NotebookLMClient._extract_answer_from_chunk` and
`_parse_query_response` -/

/-- Python `isinstance(x, int)` on a JSON value (`bool` is a subclass of
`int` in Python; floats are not ints). -/
def isPyIntVal : JVal → Bool
  | .num _ => true
  | .bool _ => true
  | _ => false

/-- The `is_answer` computation on a matched `first_elem`: the type indicator
is the last element of the list at position 4, and the chunk is an answer when
that indicator is an int equal to 1. -/
def isAnswerFlag (firstElem : List JVal) : Bool :=
  if 4 < firstElem.length then
    match jGet firstElem 4 with
    | .arr typeInfo =>
      (match typeInfo.getLast? with
       | some last => if isPyIntVal last then pyEq last (.num 1) else false
       | none => false)
    | _ => false
  else false

/-- The body of the `for item in data` loop of `_extract_answer_from_chunk`
on one item: `none` is `continue`, `some r` is `return r`. -/
def answerItemStep (item : JVal) : Option (Option String × Bool) :=
  match item with
  | .arr fields =>
    if fields.length < 3 then none
    else if !(pyEq (jGet fields 0) (.str "wrb.fr")) then none
    else
      match jGet fields 2 with
      | .str innerStr =>
        (match jsonLoads innerStr with
         | none => none
         | some innerData =>
           match innerData with
           | .arr (firstElem :: _) =>
             (match firstElem with
              | .arr (answerText :: fRest) =>
                (match answerText with
                 | .str t =>
                   if 20 < t.length then some (some t, isAnswerFlag (answerText :: fRest))
                   else none
                 | _ => none)
              | .str t => if 20 < t.length then some (some t, false) else none
              | _ => none)
           | _ => none)
      | _ => none
  | _ => none

/-- The `for item in data` loop of `_extract_answer_from_chunk`: each `continue`
moves to the remaining items; falling off the loop returns `(None, False)`. -/
def answerScanItems : List JVal → Option String × Bool
  | [] => (none, false)
  | item :: rest =>
    match answerItemStep item with
    | some r => r
    | none => answerScanItems rest

/-- Models `NotebookLMClient._extract_answer_from_chunk`. -/
def extractAnswerFromChunk (jsonStr : String) : Option String × Bool :=
  match jsonLoads jsonStr with
  | none => (none, false)
  | some data =>
    match data with
    | .arr items => if items.isEmpty then (none, false) else answerScanItems items
    | _ => (none, false)

/-- One update of the `longest_answer` / `longest_thinking` accumulators from
one chunk (`if text:` is Python truthiness, which also excludes the empty
string). -/
def queryFoldStep (acc : String × String) (c : String) : String × String :=
  match extractAnswerFromChunk c with
  | (some t, isAns) =>
    if t = "" then acc
    else if isAns then (if acc.1.length < t.length then t else acc.1, acc.2)
    else (acc.1, if acc.2.length < t.length then t else acc.2)
  | (none, _) => acc

/-- The `while i < len(lines)` loop of `_parse_query_response`: a byte-count
line makes the following raw line the chunk; any other non-blank line is the
chunk itself. -/
def queryLinesLoop (acc : String × String) : List String → String × String
  | [] => acc
  | l :: rest =>
    if pyStrip l = "" then queryLinesLoop acc rest
    else
      match pyInt (pyStrip l) with
      | some _ =>
        (match rest with
         | [] => acc
         | nxt :: rest2 => queryLinesLoop (queryFoldStep acc nxt) rest2)
      | none => queryLinesLoop (queryFoldStep acc (pyStrip l)) rest

/-- Models `return longest_answer if longest_answer else longest_thinking`. -/
def pickAnswer (p : String × String) : String := if p.1 = "" then p.2 else p.1

/-- Models `NotebookLMClient._parse_query_response`. -/
def parseQueryResponse (s : String) : String :=
  pickAnswer (queryLinesLoop ("", "") (splitLines (pyStrip (stripAntiHijack s))))

/-- The chunk strings handed to `_extract_answer_from_chunk` by the line loop,
in processing order. -/
def chunkLinesGo : List String → List String
  | [] => []
  | l :: rest =>
    if pyStrip l = "" then chunkLinesGo rest
    else
      match pyInt (pyStrip l) with
      | some _ =>
        (match rest with
         | [] => []
         | nxt :: rest2 => nxt :: chunkLinesGo rest2)
      | none => pyStrip l :: chunkLinesGo rest

/-- The chunk strings processed for a full response text. -/
def chunksOf (s : String) : List String :=
  chunkLinesGo (splitLines (pyStrip (stripAntiHijack s)))

/-- Texts of the answer-tagged chunks, in processing order. -/
def answerTexts (chunks : List String) : List String :=
  chunks.filterMap (fun c =>
    match extractAnswerFromChunk c with
    | (some t, true) => some t
    | _ => none)

/-- Texts of the thinking-tagged chunks, in processing order. -/
def thinkingTexts (chunks : List String) : List String :=
  chunks.filterMap (fun c =>
    match extractAnswerFromChunk c with
    | (some t, false) => some t
    | _ => none)

/-- The accumulator update on one tagged text. -/
def pickLonger (acc t : String) : String := if acc.length < t.length then t else acc

/-! ### Claims C3 and C10 -/

/-- A 30-character answer text. -/
def answer30 : String := String.mk (List.replicate 30 'a')

/-- A 100-character thinking text. -/
def thinking100 : String := String.mk (List.replicate 100 'b')

/-- A streamed chunk whose inner payload is tagged type 2 (thinking) and
carries `thinking100`. -/
def chunkThinking : String :=
  "[[\"wrb.fr\",null,\"[[\\\"" ++ thinking100 ++ "\\\",null,null,null,[2]]]\"]]"

/-- A streamed chunk whose inner payload is tagged type 1 (answer) and
carries `answer30`. -/
def chunkAnswer : String :=
  "[[\"wrb.fr\",null,\"[[\\\"" ++ answer30 ++ "\\\",null,null,null,[1]]]\"]]"

/-- A response stream with one thinking chunk of length 100 followed by one
answer chunk of length 30. -/
def exampleStream : String := chunkThinking ++ "\n" ++ chunkAnswer

/-- A streamed chunk whose candidate text has only 4 characters. -/
def tinyChunk : String := "[[\"wrb.fr\",null,\"[[\\\"tiny\\\",null,null,null,[1]]]\"]]"

/-! ### Claim C4 — `NotebookLMClient._build_conversation_history` -/

/-- One query/answer pair of a conversation (`turn_number` is 1-indexed). -/
structure ConversationTurn where
  query : String
  answer : String
  turn_number : Int
deriving DecidableEq

/-- Models `self._conversation_cache.get(conversation_id, [])` over the dict
modelled as an association list. -/
def dictGetTurns (cache : List (String × List ConversationTurn)) (cid : String) :
    List ConversationTurn :=
  match cache.find? (fun kv => kv.1 == cid) with
  | some kv => kv.2
  | none => []

/-- The two history entries appended for one turn: `[answer, None, 2]` then
`[query, None, 1]`. -/
def turnEntries (t : ConversationTurn) : List JVal :=
  [JVal.arr [.str t.answer, .null, .num 2], JVal.arr [.str t.query, .null, .num 1]]

/-- Models `NotebookLMClient._build_conversation_history`. -/
def buildConversationHistory (cache : List (String × List ConversationTurn))
    (cid : String) : Option (List JVal) :=
  let turns := dictGetTurns cache cid
  if turns.isEmpty then none
  else
    let history := turns.foldl (fun h t =>
      (h ++ [JVal.arr [.str t.answer, .null, .num 2]]) ++ [JVal.arr [.str t.query, .null, .num 1]]) []
    if history.isEmpty then none else some history

/-- A concrete two-turn conversation cache. -/
def twoTurnCache : List (String × List ConversationTurn) :=
  [("conv", [⟨"q1", "a1", 1⟩, ⟨"q2", "a2", 2⟩])]

/-! ### Claim C5 — `validate_cookies` and its callers -/

/-- Models `REQUIRED_COOKIES` from auth.py. -/
def REQUIRED_COOKIES : List String := ["SID", "HSID", "SSID", "APISID", "SAPISID"]

/-- Models `required in cookies` (dict key membership). -/
def cookiesHasKey (cookies : List (String × String)) (k : String) : Bool :=
  cookies.any (fun kv => kv.1 == k)

/-- The `for required in REQUIRED_COOKIES` loop of `validate_cookies`. -/
def validateCookiesGo (cookies : List (String × String)) : List String → Bool
  | [] => true
  | r :: rest => if cookiesHasKey cookies r then validateCookiesGo cookies rest else false

/-- Models `validate_cookies` from auth.py. -/
def validate_cookies (cookies : List (String × String)) : Bool :=
  validateCookiesGo cookies REQUIRED_COOKIES

/-- Python-dict insertion for string values (replace in place or append). -/
def dictInsertStr (fields : List (String × String)) (k v : String) :
    List (String × String) :=
  match fields with
  | [] => [(k, v)]
  | (k2, v2) :: rest =>
    if k2 == k then (k2, v) :: rest else (k2, v2) :: dictInsertStr rest k v

/-- Characters up to the first `=` (`cookie.split("=", 1)[0]`). -/
def takeUntilEq : List Char → List Char
  | [] => []
  | c :: rest => if c == '=' then [] else c :: takeUntilEq rest

/-- Characters after the first `=` (`cookie.split("=", 1)[1]`). -/
def dropPastEq : List Char → List Char
  | [] => []
  | c :: rest => if c == '=' then rest else dropPastEq rest

/-- The cookie-header parsing loop of `run_file_cookie_entry`: split on `;`,
strip, and for every piece containing `=` store key/value (both stripped)
into the dict. -/
def parseCookieHeader (s : String) : List (String × String) :=
  (s.data.splitOn ';').foldl (fun acc part =>
    let ck := pyStripList part
    if ck.contains '=' then
      dictInsertStr acc (String.mk (pyStripList (takeUntilEq ck)))
        (String.mk (pyStripList (dropPastEq ck)))
    else acc) []

/-- Models `line.strip().startswith("#")`. -/
def startsHash (l : String) : Bool :=
  match l.data with
  | c :: _ => c == '#'
  | [] => false

/-- Comment-stripping of the cookie file: keep non-blank, non-`#` stripped
lines and join them with single spaces. -/
def cookieFileJoined (content : String) : String :=
  String.intercalate " "
    (((splitLines (pyStrip content)).map pyStrip).filter
      (fun l => !(l == "") && !(startsHash l)))

/-- The accept/reject decision of `run_file_cookie_entry` (auth_cli.py): the
flow aborts on an empty cookie string or an empty parsed dict, but on a
failed `validate_cookies` check it only prints a warning, **continues
anyway**, builds the `AuthTokens` bundle and saves it to the cache. -/
def runFileCookieEntryDecision (content : String) : Option (List (String × String)) :=
  let joined := cookieFileJoined content
  if joined = "" then none
  else
    let cookies := parseCookieHeader joined
    if cookies.isEmpty then none
    else some cookies

/-- The validation gate of `run_auth_flow` (and of `run_headless_auth`): on a
failed `validate_cookies` check the flow returns `None` before constructing
or using an `AuthTokens` bundle. -/
def runAuthFlowCookieGate (cookies : List (String × String)) :
    Option (List (String × String)) :=
  if validate_cookies cookies then some cookies else none

/-- Models `"; ".join(f"{k}={v}" for k, v in cookies.items())`. -/
def cookieHeaderOf (cookies : List (String × String)) : String :=
  String.intercalate "; " (cookies.map (fun kv => kv.1 ++ "=" ++ kv.2))

/-- The cookie header of the first network request issued by
`NotebookLMClient.__init__`: the constructor calls `_refresh_auth_tokens`
unconditionally, which performs a page fetch carrying this header — no
validation happens before that network call. -/
def clientInitFirstFetchCookieHeader (cookies : List (String × String)) : String :=
  cookieHeaderOf cookies

/-- A cookie file content missing the required `SAPISID` cookie. -/
def invalidCookieFileContent : String := "SID=a; HSID=b; SSID=c; APISID=d"

/-- The cookie dict parsed from `invalidCookieFileContent`. -/
def invalidCookies : List (String × String) :=
  [("SID", "a"), ("HSID", "b"), ("SSID", "c"), ("APISID", "d")]

/-! ### Claim C6 — `AuthTokens` save/load round trip -/

/-- The `AuthTokens` dataclass of auth.py (`extracted_at` is modelled at
integer precision; the claim itself sets float rounding aside). -/
structure AuthTokens where
  cookies : List (String × String)
  csrf_token : String
  session_id : String
  extracted_at : Int

/-- Models `AuthTokens.to_dict`. -/
def AuthTokens.toDict (t : AuthTokens) : JVal :=
  .obj [("cookies", .obj (t.cookies.map (fun kv => (kv.1, JVal.str kv.2)))),
        ("csrf_token", .str t.csrf_token),
        ("session_id", .str t.session_id),
        ("extracted_at", .num t.extracted_at)]

/-- Models `data[k]` / `data.get(k)` on a JSON object. -/
def dictLookup (fields : List (String × JVal)) (k : String) : Option JVal :=
  (fields.find? (fun kv => kv.1 == k)).map (fun kv => kv.2)

/-- Reads a cookies mapping back into the dataclass's declared
`dict[str, str]` type (a value outside that type is a decode failure in the
typed model). -/
def decodeCookieFields : List (String × JVal) → Option (List (String × String))
  | [] => some []
  | (k, .str v) :: rest => (decodeCookieFields rest).map (fun l => (k, v) :: l)
  | _ => none

/-- Models `data.get(k, "")` restricted to the declared string type. -/
def strOrDefault : Option JVal → String
  | some (.str s) => s
  | _ => ""

/-- Models `data.get("extracted_at", 0)` restricted to the declared numeric type. -/
def intOrZero : Option JVal → Int
  | some (.num n) => n
  | _ => 0

/-- Models `AuthTokens.from_dict`; a missing `"cookies"` key is the `KeyError` that
`load_cached_tokens` catches. -/
def AuthTokens.fromDict (data : JVal) : Option AuthTokens :=
  match data with
  | .obj fields =>
    (match dictLookup fields "cookies" with
     | none => none
     | some cv =>
       match cv with
       | .obj cfields =>
         (match decodeCookieFields cfields with
          | none => none
          | some cookies =>
            some { cookies := cookies
                   csrf_token := strOrDefault (dictLookup fields "csrf_token")
                   session_id := strOrDefault (dictLookup fields "session_id")
                   extracted_at := intOrZero (dictLookup fields "extracted_at") })
       | _ => none)
  | _ => none

/-- Models `save_tokens_to_cache`: the JSON value written to auth.json (file text
serialization is modelled at value level). -/
def save_tokens_to_cache (t : AuthTokens) : JVal := t.toDict

/-- Models `load_cached_tokens`: `none` is "no cache file"; decode errors also
yield `None`. -/
def load_cached_tokens (cacheFile : Option JVal) : Option AuthTokens :=
  match cacheFile with
  | none => none
  | some data => AuthTokens.fromDict data

/-- A concrete valid credential bundle. -/
def sampleTokens : AuthTokens :=
  { cookies := [("SID", "s"), ("HSID", "h"), ("SSID", "ss"), ("APISID", "a"), ("SAPISID", "sa")]
    csrf_token := "tok"
    session_id := "sid"
    extracted_at := 1700000000 }

/-! ### Claim C7 — `NotebookLMClient._build_request_body`

`json.dumps(..., separators=(",", ":"))` and `urllib.parse.quote(..., safe="")`
are modelled below.  Non-integer numbers are rendered in exact-decimal
`<mantissa>e<exponent>` form — a whitespace-free valid JSON float rendering;
the bit-exact `repr` of a Python float is outside the model (no request
parameters in the source carry floats). -/

/-- Decimal digits of a natural number (the fuel only bounds recursion). -/
def natDigitsGo : Nat → Nat → List Char → List Char
  | 0, _, acc => acc
  | fuel + 1, n, acc =>
    if n < 10 then Char.ofNat (48 + n) :: acc
    else natDigitsGo fuel (n / 10) (Char.ofNat (48 + n % 10) :: acc)

def natDecimal (n : Nat) : String := String.mk (natDigitsGo (n + 1) n [])

/-- Models `str(i)` for a Python int. -/
def intDecimal (i : Int) : String :=
  if i < 0 then "-" ++ natDecimal (-i).toNat else natDecimal i.toNat

/-- Lowercase hex digit. -/
def hexLowerDigit (n : Nat) : Char :=
  if n < 10 then Char.ofNat (48 + n) else Char.ofNat (87 + n)

/-- Four lowercase hex digits, as in `\uXXXX` escapes. -/
def hex4Lower (n : Nat) : List Char :=
  [hexLowerDigit (n / 4096 % 16), hexLowerDigit (n / 256 % 16),
   hexLowerDigit (n / 16 % 16), hexLowerDigit (n % 16)]

/-- Per-character output of `json.dumps` string escaping with the default
`ensure_ascii=True`: two-character escapes for the usual controls, `\uXXXX`
for other controls and all non-ASCII, surrogate pairs above U+FFFF. -/
def escapeCharAscii (c : Char) : List Char :=
  if c == '"' then ['\\', '"']
  else if c == '\\' then ['\\', '\\']
  else if c == '\n' then ['\\', 'n']
  else if c == '\r' then ['\\', 'r']
  else if c == '\t' then ['\\', 't']
  else if c.toNat == 8 then ['\\', 'b']
  else if c.toNat == 12 then ['\\', 'f']
  else if c.toNat < 0x20 || 0x7F ≤ c.toNat then
    if c.toNat < 0x10000 then '\\' :: 'u' :: hex4Lower c.toNat
    else
      ('\\' :: 'u' :: hex4Lower (0xD800 + (c.toNat - 0x10000) / 0x400))
        ++ ('\\' :: 'u' :: hex4Lower (0xDC00 + (c.toNat - 0x10000) % 0x400))
  else [c]

/-- A JSON string literal as `json.dumps` emits it. -/
def dumpStr (s : String) : String :=
  String.mk ('"' :: s.data.foldr (fun c acc => escapeCharAscii c ++ acc) ['"'])

mutual

/-- Models `json.dumps(v, separators=(",", ":"))`: compact form, no whitespace
between tokens. -/
def jsonDump : JVal → String
  | .null => "null"
  | .bool true => "true"
  | .bool false => "false"
  | .num n => intDecimal n
  | .numE m e => intDecimal m ++ "e" ++ intDecimal e
  | .str s => dumpStr s
  | .arr xs => "[" ++ dumpList xs ++ "]"
  | .obj fs => String.mk [obrace] ++ dumpFields fs ++ String.mk [cbrace]

def dumpList : List JVal → String
  | [] => ""
  | [x] => jsonDump x
  | x :: xs => jsonDump x ++ "," ++ dumpList xs

def dumpFields : List (String × JVal) → String
  | [] => ""
  | [(k, v)] => dumpStr k ++ ":" ++ jsonDump v
  | (k, v) :: fs => dumpStr k ++ ":" ++ jsonDump v ++ "," ++ dumpFields fs

end


/-- UTF-8 bytes of one code point. -/
def utf8Bytes (c : Char) : List Nat :=
  if c.toNat < 0x80 then [c.toNat]
  else if c.toNat < 0x800 then
    [0xC0 + c.toNat / 0x40, 0x80 + c.toNat % 0x40]
  else if c.toNat < 0x10000 then
    [0xE0 + c.toNat / 0x1000, 0x80 + c.toNat / 0x40 % 0x40, 0x80 + c.toNat % 0x40]
  else
    [0xF0 + c.toNat / 0x40000, 0x80 + c.toNat / 0x1000 % 0x40,
     0x80 + c.toNat / 0x40 % 0x40, 0x80 + c.toNat % 0x40]

/-- Models `urllib.parse.quote`'s always-safe set: ASCII letters, digits, and
`_.-~`; with `safe=""` everything else is percent-escaped. -/
def isUnreservedCh (c : Char) : Bool :=
  (65 ≤ c.toNat && c.toNat ≤ 90) || (97 ≤ c.toNat && c.toNat ≤ 122)
    || (48 ≤ c.toNat && c.toNat ≤ 57)
    || c == '_' || c == '.' || c == '-' || c == '~'

/-- Uppercase hex digit, as `quote` emits. -/
def hexUpperDigit (n : Nat) : Char :=
  if n < 10 then Char.ofNat (48 + n) else Char.ofNat (55 + n)

/-- Models `quote` output for one character: kept verbatim when always-safe,
otherwise each UTF-8 byte becomes `%XX`. -/
def percentEncodeChar (c : Char) : List Char :=
  if isUnreservedCh c then [c]
  else (utf8Bytes c).foldr
    (fun b acc => '%' :: hexUpperDigit (b / 16) :: hexUpperDigit (b % 16) :: acc) []

/-- Models `urllib.parse.quote(s, safe="")`. -/
def percentEncode (s : String) : String :=
  String.mk ((s.data.map percentEncodeChar).flatten)

/-- Value of an uppercase hex digit (specification side). -/
def hexUpperVal (c : Char) : Nat :=
  if c.toNat ≤ 57 then c.toNat - 48 else c.toNat - 55

/-- Specification-side inverse: read `%XX` triples back to bytes and other
characters as their code points. -/
def percentDecodeBytes : List Char → List Nat
  | [] => []
  | c :: h1 :: h2 :: rest =>
    if c == '%' then (16 * hexUpperVal h1 + hexUpperVal h2) :: percentDecodeBytes rest
    else c.toNat :: percentDecodeBytes (h1 :: h2 :: rest)
  | c :: rest => c.toNat :: percentDecodeBytes rest

/-- The UTF-8 byte sequence of a string. -/
def utf8BytesOfString (s : String) : List Nat := (s.data.map utf8Bytes).flatten

/-- The outer request envelope `[[[rpc_id, params_json, None, "generic"]]]`. -/
def fReqEnvelope (rpcId : String) (params : JVal) : JVal :=
  .arr [.arr [.arr [.str rpcId, .str (jsonDump params), .null, .str "generic"]]]

/-- Models `NotebookLMClient._build_request_body`. -/
def buildRequestBody (rpcId : String) (params : JVal) (csrfToken : String) : String :=
  (if csrfToken = "" then "f.req=" ++ percentEncode (jsonDump (fReqEnvelope rpcId params))
   else "f.req=" ++ percentEncode (jsonDump (fReqEnvelope rpcId params))
     ++ "&at=" ++ percentEncode csrfToken) ++ "&"

/-! ### Claim C2 — the `_call_rpc` recovery ladder

The network and the two recovery collaborators are the environment: attempt
`n` of one original call yields an HTTP status and a response body;
`refreshOk n` tells whether the n-th `_refresh_auth_tokens` call succeeds
(or raises the `ValueError` that the ladder catches); `reloadOk n` tells
whether the n-th `_try_reload_or_headless_auth` call returns `True`.
`httpx.Response.raise_for_status` raises `HTTPStatusError` for every
non-2xx status. -/

structure RpcWorld where
  attempts : Nat → Nat × String
  refreshOk : Nat → Bool
  reloadOk : Nat → Bool

/-- Invocation counters of one original call. -/
structure CallCounts where
  attemptCount : Nat
  refreshCount : Nat
  reloadCount : Nat
deriving DecidableEq

/-- Result of `_call_rpc`: a returned payload, a propagated non-auth
`HTTPStatusError`, or the terminal "authentication expired"
`AuthenticationError` after the ladder is exhausted. -/
inductive CallResult where
  | ok (v : JVal)
  | httpError (status : Nat)
  | authExpired

/-- The `try` block of `_call_rpc` on attempt `n`: `some r` leaves the
function (return or non-auth re-raise); `none` is an authentication signal
(HTTP 401/403, or `AuthenticationError` raised by `_extract_rpc_result`)
entering the recovery ladder. -/
def attemptOutcome (w : RpcWorld) (rpcId : String) (n : Nat) : Option CallResult :=
  if 200 ≤ (w.attempts n).1 ∧ (w.attempts n).1 < 300 then
    match extractRpcResult (parseResponse (w.attempts n).2) rpcId with
    | .authError => none
    | .result v => some (.ok v)
  else if (w.attempts n).1 = 401 ∨ (w.attempts n).1 = 403 then none
  else some (.httpError (w.attempts n).1)

/-- Models `_call_rpc` with its `_retry` / `_deep_retry` flags.  Layer 1 (token
refresh) runs only when `_retry` is unset; on its `ValueError` the same
handler falls through to Layer 2 (reload / headless re-auth), which runs
only when `_deep_retry` is unset; each recursive retry sets the
corresponding flag, and an exhausted ladder raises the terminal
authentication-expired error. -/
def callRpcGo (w : RpcWorld) (rpcId : String) (retry deep : Bool) (s : CallCounts) :
    CallResult × CallCounts :=
  let s1 : CallCounts := { s with attemptCount := s.attemptCount + 1 }
  match attemptOutcome w rpcId s.attemptCount with
  | some r => (r, s1)
  | none =>
    if retry then
      if deep then (.authExpired, s1)
      else
        let s2 := { s1 with reloadCount := s1.reloadCount + 1 }
        if w.reloadOk s1.reloadCount then callRpcGo w rpcId true true s2
        else (.authExpired, s2)
    else
      let s2 := { s1 with refreshCount := s1.refreshCount + 1 }
      if w.refreshOk s1.refreshCount then callRpcGo w rpcId true false s2
      else
        if deep then (.authExpired, s2)
        else
          let s3 := { s2 with reloadCount := s2.reloadCount + 1 }
          if w.reloadOk s2.reloadCount then callRpcGo w rpcId true true s3
          else (.authExpired, s3)
termination_by (cond retry 0 4) + (cond deep 0 2)
decreasing_by all_goals (simp_all; try (cases deep <;> simp))

/-- One original `_call_rpc` call. -/
def callRpc (w : RpcWorld) (rpcId : String) : CallResult × CallCounts :=
  callRpcGo w rpcId false false ⟨0, 0, 0⟩

/-- A response body carrying the payload `"5"` for rpcId `nb`. -/
def okBody : String := "[[\"wrb.fr\",\"nb\",\"5\",null]]"

/-- A world whose first attempt is an HTTP 401 and whose retried attempt is
an HTTP 200 carrying a valid payload, with a working token refresh. -/
def worldRetry : RpcWorld :=
  { attempts := fun n => if n = 0 then (401, "") else (200, okBody)
    refreshOk := fun _ => true
    reloadOk := fun _ => true }

/-! ### Theorems -/

theorem extractScanItems_eq_filter (rpcId : String) (items : List JVal) :
    extractScanItems rpcId items
      = ((items.filter (isSentinelMatch rpcId)).head?).map firstMatchVerdict := by
  induction items with
  | nil => rfl
  | cons item rest ih =>
    by_cases h : isSentinelMatch rpcId item
    · by_cases h2 : isSoftAuthSig item <;>
        simp [extractScanItems, h, h2, firstMatchVerdict, List.filter_cons]
    · simp [extractScanItems, h, List.filter_cons, ih]

theorem extractScanChunks_eq_matching (rpcId : String) (parsed : List JVal) :
    extractScanChunks rpcId parsed
      = ((matchingItems parsed rpcId).head?).map firstMatchVerdict := by
  induction parsed with
  | nil => rfl
  | cons chunk rest ih =>
    rw [extractScanChunks, extractScanItems_eq_filter]
    cases hf : (chunkItems chunk).filter (isSentinelMatch rpcId) with
    | nil => simpa [matchingItems, hf] using ih
    | cons a l => simp [matchingItems, hf]

/-- C1 (counterexample): a decoded frame list that contains the soft
authentication-error signature item for the rpcId, yet `_extract_rpc_result`
returns a value instead of raising, because an earlier frame also matches the
sentinel plus rpcId and the scan stops at the first match. -/
theorem extract_soft_error_not_always_raised :
    isSoftAuthSig softSigR1 = true
      ∧ softSigR1 ∈ matchingItems framesGoodThenSig "r1"
      ∧ extractRpcResult framesGoodThenSig "r1" = .result (.num 7)
      ∧ extractRpcResult framesGoodThenSig "r1" ≠ .authError := by
  refine ⟨rfl, ?_, rfl, ?_⟩
  · have h : matchingItems framesGoodThenSig "r1" = [goodR1, softSigR1] := rfl
    rw [h]
    exact List.mem_cons_of_mem _ (List.mem_cons_self _ _)
  · intro h
    have h2 : extractRpcResult framesGoodThenSig "r1" = .result (.num 7) := rfl
    rw [h2] at h
    exact ExtractResult.noConfusion h

/-- C1 (amended): whenever the **first** item matching the sentinel `"wrb.fr"`
plus the rpcId is of the soft authentication-error form (element 6 equals
`"generic"` and element 5 is a list containing 16) — in particular whenever
the signature item is the only match — `_extract_rpc_result` raises
`AuthenticationError` and never returns a value for that rpcId. -/
theorem extract_soft_error_first_match (parsed : List JVal) (rpcId : String)
    (item : JVal) (rest : List JVal)
    (hm : matchingItems parsed rpcId = item :: rest)
    (hs : isSoftAuthSig item = true) :
    extractRpcResult parsed rpcId = .authError := by
  unfold extractRpcResult
  rw [extractScanChunks_eq_matching, hm]
  simp [firstMatchVerdict, hs]

/-- C1 witness: on a frame list whose only match is the signature item, the
extractor raises. -/
theorem extract_soft_error_first_match_witness :
    extractRpcResult framesSigOnly "r1" = .authError :=
  extract_soft_error_first_match framesSigOnly "r1" softSigR1 [] rfl rfl

/-- C9: when several items match the sentinel plus rpcId,
`_extract_rpc_result` returns the payload of the first matching item in
stream order (its element 2, JSON-parsed when it is a string, falling back to
the raw string) and never inspects later matches; in particular a
soft-authentication-error signature appearing only in a later matching frame
does not raise. -/
theorem extract_first_match_payload :
    (∀ (parsed : List JVal) (rpcId : String) (item : JVal) (rest : List JVal),
        matchingItems parsed rpcId = item :: rest → isSoftAuthSig item = false →
        extractRpcResult parsed rpcId = .result (itemPayload item))
      ∧ (isSoftAuthSig softSigR9 = true
          ∧ softSigR9 ∈ matchingItems framesNine "r9"
          ∧ extractRpcResult framesNine "r9" = .result (.num 7)
          ∧ extractRpcResult framesNine "r9" ≠ .authError) := by
  constructor
  · intro parsed rpcId item rest hm hs
    unfold extractRpcResult
    rw [extractScanChunks_eq_matching, hm]
    simp [firstMatchVerdict, hs]
  · refine ⟨rfl, ?_, rfl, ?_⟩
    · have h : matchingItems framesNine "r9" = [goodR9, softSigR9] := rfl
      rw [h]
      exact List.mem_cons_of_mem _ (List.mem_cons_self _ _)
    · intro h
      have h2 : extractRpcResult framesNine "r9" = .result (.num 7) := rfl
      rw [h2] at h
      exact ExtractResult.noConfusion h

/-- C9 witness: the first-match rule applied to a concrete two-frame stream. -/
theorem extract_first_match_payload_witness :
    extractRpcResult framesNine "r9" = .result (.num 7) :=
  extract_first_match_payload.1 framesNine "r9" goodR9 [softSigR9] rfl rfl

/-- C8: the response-stream decoder is total and lenient: the anti-hijacking
prefix is stripped when present; a blank line is skipped; a line that is
neither a bare integer nor valid JSON is skipped rather than aborting the
decode; and when no frame matches the sentinel plus rpcId, the extractor
returns Python `None` rather than raising. -/
theorem parse_response_lenient :
    (∀ r : String, ¬ antiHijack.isPrefixOf r.data →
        parseResponse (String.mk (antiHijack ++ r.data)) = parseResponse r)
      ∧ (∀ (m : String) (rest : List String), pyStrip m = "" →
          parseChunkLines (m :: rest) = parseChunkLines rest)
      ∧ (∀ (m : String) (rest : List String), pyStrip m ≠ "" →
          pyInt (pyStrip m) = none → jsonLoads (pyStrip m) = none →
          parseChunkLines (m :: rest) = parseChunkLines rest)
      ∧ (∀ (parsed : List JVal) (rpcId : String), matchingItems parsed rpcId = [] →
          extractRpcResult parsed rpcId = .result .null) := by
  refine ⟨?_, ?_, ?_, ?_⟩
  · intro r hr
    have h1 : antiHijack.isPrefixOf (String.mk (antiHijack ++ r.data)).data = true :=
      List.isPrefixOf_iff_prefix.mpr (List.prefix_append _ _)
    have h2 : (antiHijack ++ r.data).drop 4 = r.data := by
      simp [antiHijack, List.drop_left antiHijack r.data]
    unfold parseResponse
    rw [stripAntiHijack, stripAntiHijack, if_pos h1, if_neg (by simpa using hr)]
    show parseChunkLines (splitLines (pyStrip (String.mk ((antiHijack ++ r.data).drop 4)))) = _
    rw [h2]
  · intro m rest h
    cases rest with
    | nil => simp [parseChunkLines, h]
    | cons nxt rest2 => simp [parseChunkLines, h]
  · intro m rest h1 h2 h3
    cases rest with
    | nil => simp [parseChunkLines, h1, h2, h3]
    | cons nxt rest2 => simp [parseChunkLines, h1, h2, h3]
  · intro parsed rpcId h
    unfold extractRpcResult
    rw [extractScanChunks_eq_matching, h]
    rfl

/-- C8 witness: the leniency properties applied to concrete inputs. -/
theorem parse_response_lenient_witness :
    parseResponse (String.mk (antiHijack ++ "[5]".data)) = parseResponse "[5]"
      ∧ parseChunkLines ["  ", "[5]"] = parseChunkLines ["[5]"]
      ∧ parseChunkLines ["@@", "[5]"] = parseChunkLines ["[5]"]
      ∧ extractRpcResult [JVal.arr [JVal.arr [JVal.str "x"]]] "nb" = .result .null :=
  ⟨parse_response_lenient.1 "[5]" (by decide),
   parse_response_lenient.2.1 "  " ["[5]"] rfl,
   parse_response_lenient.2.2.1 "@@" ["[5]"] (by decide) rfl rfl,
   parse_response_lenient.2.2.2 [JVal.arr [JVal.arr [JVal.str "x"]]] "nb" rfl⟩

theorem answerItemStep_long (item : JVal) (t : String) (b : Bool)
    (h : answerItemStep item = some (some t, b)) : 20 < t.length := by
  unfold answerItemStep at h
  repeat' split at h
  all_goals simp_all

theorem answerScanItems_long (items : List JVal) (t : String) (b : Bool)
    (h : answerScanItems items = (some t, b)) : 20 < t.length := by
  induction items with
  | nil => simp [answerScanItems] at h
  | cons item rest ih =>
    rw [answerScanItems] at h
    cases hs : answerItemStep item with
    | none => rw [hs] at h; exact ih h
    | some r =>
      rw [hs] at h
      simp only at h
      rw [h] at hs
      exact answerItemStep_long item t b hs

/-- Guard of `_extract_answer_from_chunk`: any returned text is strictly
longer than 20 characters. -/
theorem extract_chunk_text_long (c : String) (t : String) (b : Bool)
    (h : extractAnswerFromChunk c = (some t, b)) : 20 < t.length := by
  unfold extractAnswerFromChunk at h
  split at h
  · simp at h
  · split at h
    · split at h
      · simp at h
      · exact answerScanItems_long _ t b h
    · simp at h

/-- The line loop of `_parse_query_response` is the fold of the accumulator
update over the chunk strings it feeds to the extractor. -/
theorem queryLinesLoop_eq_foldl (acc : String × String) (ls : List String) :
    queryLinesLoop acc ls = (chunkLinesGo ls).foldl queryFoldStep acc := by
  induction acc, ls using queryLinesLoop.induct with
  | case1 acc => rfl
  | case2 acc nxt rest2 h ih =>
    cases rest2 <;> simp [queryLinesLoop, chunkLinesGo, h, ih]
  | case3 acc nxt h val hv => simp only [queryLinesLoop, chunkLinesGo, h, hv]; rfl
  | case4 acc nxt h val hv nxt2 rest2 ih =>
    simp only [queryLinesLoop, chunkLinesGo, h, hv, ih]; rfl
  | case5 acc nxt rest2 h hv ih =>
    cases rest2 <;> simp [queryLinesLoop, chunkLinesGo, h, hv, ih]

/-- The two accumulators evolve independently: the fold over all chunks is
the pair of `pickLonger` folds over the answer-tagged and thinking-tagged
texts. -/
theorem foldl_step_split (chunks : List String) : ∀ la lt : String,
    chunks.foldl queryFoldStep (la, lt)
      = ((answerTexts chunks).foldl pickLonger la,
         (thinkingTexts chunks).foldl pickLonger lt) := by
  induction chunks with
  | nil => intro la lt; rfl
  | cons c cs ih =>
    intro la lt
    rw [List.foldl_cons]
    rcases hc : extractAnswerFromChunk c with ⟨o, flag⟩
    cases o with
    | none =>
      have hstep : queryFoldStep (la, lt) c = (la, lt) := by simp [queryFoldStep, hc]
      rw [hstep, ih]
      simp [answerTexts, thinkingTexts, List.filterMap_cons, hc]
    | some t =>
      have ht : 20 < t.length := extract_chunk_text_long c t flag hc
      have htne : ¬ t = "" := by
        intro he
        rw [he] at ht
        simp at ht
      cases flag with
      | true =>
        have hstep : queryFoldStep (la, lt) c = (pickLonger la t, lt) := by
          simp [queryFoldStep, hc, htne, pickLonger]
        rw [hstep, ih]
        simp [answerTexts, thinkingTexts, List.filterMap_cons, hc]
      | false =>
        have hstep : queryFoldStep (la, lt) c = (la, pickLonger lt t) := by
          simp [queryFoldStep, hc, htne, pickLonger]
        rw [hstep, ih]
        simp [answerTexts, thinkingTexts, List.filterMap_cons, hc]

/-- The `pickLonger` fold keeps the first element of maximal length (or the
initial accumulator when nothing beats it). -/
theorem foldl_pickLonger_spec (l : List String) : ∀ acc : String,
    acc.length ≤ (l.foldl pickLonger acc).length
      ∧ (∀ x ∈ l, x.length ≤ (l.foldl pickLonger acc).length)
      ∧ ((l.foldl pickLonger acc) = acc
          ∨ ∃ pre suf, l = pre ++ (l.foldl pickLonger acc) :: suf
              ∧ acc.length < (l.foldl pickLonger acc).length
              ∧ ∀ x ∈ pre, x.length < (l.foldl pickLonger acc).length) := by
  induction l with
  | nil => intro acc; exact ⟨le_refl _, by simp, Or.inl rfl⟩
  | cons x xs ih =>
    intro acc
    rw [List.foldl_cons]
    by_cases h : acc.length < x.length
    · have hx : pickLonger acc x = x := if_pos h
      rw [hx]
      obtain ⟨h1, h2, h3⟩ := ih x
      refine ⟨le_trans h.le h1, ?_, ?_⟩
      · intro y hy
        rcases List.mem_cons.mp hy with rfl | hy2
        · exact h1
        · exact h2 y hy2
      · rcases h3 with heq | ⟨pre, suf, hdec, hlt, hpre⟩
        · right
          refine ⟨[], xs, ?_, ?_, by simp⟩
          · simp [heq]
          · rw [heq]; exact h
        · right
          refine ⟨x :: pre, suf, ?_, lt_trans h hlt, ?_⟩
          · rw [List.cons_append]
            exact congrArg _ hdec
          · intro y hy
            rcases List.mem_cons.mp hy with rfl | hy2
            · exact hlt
            · exact hpre y hy2
    · have hx : pickLonger acc x = acc := if_neg h
      rw [hx]
      obtain ⟨h1, h2, h3⟩ := ih acc
      push_neg at h
      refine ⟨h1, ?_, ?_⟩
      · intro y hy
        rcases List.mem_cons.mp hy with rfl | hy2
        · exact le_trans h h1
        · exact h2 y hy2
      · rcases h3 with heq | ⟨pre, suf, hdec, hlt, hpre⟩
        · exact Or.inl heq
        · right
          refine ⟨x :: pre, suf, ?_, hlt, ?_⟩
          · rw [List.cons_append]
            exact congrArg _ hdec
          intro y hy
          rcases List.mem_cons.mp hy with rfl | hy2
          · exact lt_of_le_of_lt h hlt
          · exact hpre y hy2

theorem mem_answerTexts_long (chunks : List String) (a : String)
    (ha : a ∈ answerTexts chunks) : 20 < a.length := by
  rw [answerTexts, List.mem_filterMap] at ha
  obtain ⟨c, _, hf⟩ := ha
  rcases hx : extractAnswerFromChunk c with ⟨o, flag⟩
  rw [hx] at hf
  cases o with
  | none => cases flag <;> simp at hf
  | some t =>
    cases flag with
    | false => simp at hf
    | true =>
      simp only [Option.some.injEq] at hf
      exact hf ▸ extract_chunk_text_long c t true hx

theorem mem_thinkingTexts_long (chunks : List String) (a : String)
    (ha : a ∈ thinkingTexts chunks) : 20 < a.length := by
  rw [thinkingTexts, List.mem_filterMap] at ha
  obtain ⟨c, _, hf⟩ := ha
  rcases hx : extractAnswerFromChunk c with ⟨o, flag⟩
  rw [hx] at hf
  cases o with
  | none => cases flag <;> simp at hf
  | some t =>
    cases flag with
    | true => simp at hf
    | false =>
      simp only [Option.some.injEq] at hf
      exact hf ▸ extract_chunk_text_long c t false hx

/-- Models `_parse_query_response` in terms of the per-tag folds. -/
theorem parseQueryResponse_eq (s : String) :
    parseQueryResponse s
      = pickAnswer ((answerTexts (chunksOf s)).foldl pickLonger "",
                    (thinkingTexts (chunksOf s)).foldl pickLonger "") := by
  rw [parseQueryResponse, queryLinesLoop_eq_foldl, foldl_step_split]
  rfl

/-- C3: the streamed-query decoder returns the longest answer-tagged chunk
text — it is one of the answer texts, no answer text is longer, and every
earlier answer text is strictly shorter (first-seen wins ties); when no
answer-tagged chunk exists it selects the longest thinking-tagged text the
same way.  In particular, on a stream with a length-100 thinking chunk and a
length-30 answer chunk it selects the length-30 answer text. -/
theorem query_longest_answer_selection :
    (∀ s : String,
      (answerTexts (chunksOf s) ≠ [] →
        parseQueryResponse s ∈ answerTexts (chunksOf s)
          ∧ (∀ x ∈ answerTexts (chunksOf s), x.length ≤ (parseQueryResponse s).length)
          ∧ ∃ pre suf, answerTexts (chunksOf s) = pre ++ parseQueryResponse s :: suf
              ∧ ∀ x ∈ pre, x.length < (parseQueryResponse s).length)
      ∧ (answerTexts (chunksOf s) = [] → thinkingTexts (chunksOf s) ≠ [] →
          parseQueryResponse s ∈ thinkingTexts (chunksOf s)
            ∧ (∀ x ∈ thinkingTexts (chunksOf s), x.length ≤ (parseQueryResponse s).length)
            ∧ ∃ pre suf, thinkingTexts (chunksOf s) = pre ++ parseQueryResponse s :: suf
                ∧ ∀ x ∈ pre, x.length < (parseQueryResponse s).length))
    ∧ (extractAnswerFromChunk chunkThinking = (some thinking100, false)
        ∧ extractAnswerFromChunk chunkAnswer = (some answer30, true)
        ∧ thinking100.length = 100 ∧ answer30.length = 30
        ∧ parseQueryResponse exampleStream = answer30) := by
  constructor
  · intro s
    constructor
    · intro hne
      obtain ⟨a, ha⟩ := List.exists_mem_of_ne_nil _ hne
      have ha20 := mem_answerTexts_long _ a ha
      obtain ⟨h1, h2, h3⟩ := foldl_pickLonger_spec (answerTexts (chunksOf s)) ""
      set LA := (answerTexts (chunksOf s)).foldl pickLonger "" with hLAdef
      have hbound := h2 a ha
      have hLAne : LA ≠ "" := by
        intro he
        rw [he] at hbound
        simp at hbound
        omega
      have hres : parseQueryResponse s = LA := by
        rw [parseQueryResponse_eq, ← hLAdef]
        simp [pickAnswer, hLAne]
      rcases h3 with heq | ⟨pre, suf, hdec, _, hpre⟩
      · exact absurd heq hLAne
      · rw [hres]
        refine ⟨?_, fun x hx => h2 x hx, pre, suf, hdec, hpre⟩
        rw [hdec]
        exact List.mem_append.mpr (Or.inr (List.mem_cons_self _ _))
    · intro hempty hthk
      obtain ⟨a, ha⟩ := List.exists_mem_of_ne_nil _ hthk
      have ha20 := mem_thinkingTexts_long _ a ha
      obtain ⟨h1, h2, h3⟩ := foldl_pickLonger_spec (thinkingTexts (chunksOf s)) ""
      set LT := (thinkingTexts (chunksOf s)).foldl pickLonger "" with hLTdef
      have hbound := h2 a ha
      have hLTne : LT ≠ "" := by
        intro he
        rw [he] at hbound
        simp at hbound
        omega
      have hres : parseQueryResponse s = LT := by
        rw [parseQueryResponse_eq, hempty, ← hLTdef]
        rfl
      rcases h3 with heq | ⟨pre, suf, hdec, _, hpre⟩
      · exact absurd heq hLTne
      · rw [hres]
        refine ⟨?_, fun x hx => h2 x hx, pre, suf, hdec, hpre⟩
        rw [hdec]
        exact List.mem_append.mpr (Or.inr (List.mem_cons_self _ _))
  · exact ⟨rfl, rfl, rfl, rfl, rfl⟩

/-- C3 witness: on the concrete 100/30 stream, the decoder output is among
the answer texts and dominates them in length. -/
theorem query_longest_answer_selection_witness :
    parseQueryResponse exampleStream ∈ answerTexts (chunksOf exampleStream)
      ∧ ∀ x ∈ answerTexts (chunksOf exampleStream),
          x.length ≤ (parseQueryResponse exampleStream).length := by
  have h := (query_longest_answer_selection.1 exampleStream).1 (by
    have he : answerTexts (chunksOf exampleStream) = [answer30] := rfl
    rw [he]
    simp)
  exact ⟨h.1, h.2.1⟩

/-- C10: `_extract_answer_from_chunk` returns a text only if it is strictly
longer than 20 characters, and when every chunk of a stream yields only
texts of at most 20 characters (hence none at all), `_parse_query_response`
returns the empty string. -/
theorem chunk_extractor_min_length :
    (∀ (c : String) (t : String) (b : Bool),
        extractAnswerFromChunk c = (some t, b) → 20 < t.length)
      ∧ (∀ s : String,
          (∀ c ∈ chunksOf s, ∀ (t : String) (b : Bool),
              extractAnswerFromChunk c = (some t, b) → t.length ≤ 20) →
          parseQueryResponse s = "") := by
  constructor
  · exact extract_chunk_text_long
  · intro s hshort
    have hnone : ∀ c ∈ chunksOf s, (extractAnswerFromChunk c).1 = none := by
      intro c hcm
      rcases hx : extractAnswerFromChunk c with ⟨o, flag⟩
      cases o with
      | none => rfl
      | some t =>
        have hgt := extract_chunk_text_long c t flag hx
        have hle := hshort c hcm t flag hx
        omega
    have hans : answerTexts (chunksOf s) = [] := by
      rw [answerTexts, List.filterMap_eq_nil_iff]
      intro c hcm
      have hn := hnone c hcm
      rcases hx : extractAnswerFromChunk c with ⟨o, flag⟩
      rw [hx] at hn
      simp only at hn
      subst hn
      cases flag <;> rfl
    have hthk : thinkingTexts (chunksOf s) = [] := by
      rw [thinkingTexts, List.filterMap_eq_nil_iff]
      intro c hcm
      have hn := hnone c hcm
      rcases hx : extractAnswerFromChunk c with ⟨o, flag⟩
      rw [hx] at hn
      simp only at hn
      subst hn
      cases flag <;> rfl
    rw [parseQueryResponse_eq, hans, hthk]
    rfl

/-- C10 witness: the guard applied to the concrete answer chunk, and the
empty-result rule applied to a stream whose only candidate text is 4
characters long. -/
theorem chunk_extractor_min_length_witness :
    20 < answer30.length ∧ parseQueryResponse tinyChunk = "" := by
  constructor
  · exact chunk_extractor_min_length.1 chunkAnswer answer30 true rfl
  · refine chunk_extractor_min_length.2 tinyChunk ?_
    intro c hc t b h
    have hc2 : c = tinyChunk := by
      have he : chunksOf tinyChunk = [tinyChunk] := rfl
      rw [he] at hc
      simpa using hc
    rw [hc2] at h
    have he2 : extractAnswerFromChunk tinyChunk = (none, false) := rfl
    rw [he2] at h
    simp at h

theorem historyFold_eq (turns : List ConversationTurn) : ∀ acc : List JVal,
    turns.foldl (fun h t =>
        (h ++ [JVal.arr [.str t.answer, .null, .num 2]]) ++ [JVal.arr [.str t.query, .null, .num 1]]) acc
      = acc ++ (turns.map turnEntries).flatten := by
  induction turns with
  | nil => intro acc; simp
  | cons t rest ih =>
    intro acc
    rw [List.foldl_cons, ih]
    simp [turnEntries]

/-- C4: `buildHistory` returns `None` when no turns are recorded; otherwise
it returns, oldest turn first, two entries per turn with the answer-tagged
entry `[answer, null, 2]` before the query-tagged entry `[query, null, 1]`;
on the concrete cache with turns `[(q1,a1),(q2,a2)]` the result is exactly
`[[a1,null,2],[q1,null,1],[a2,null,2],[q2,null,1]]`. -/
theorem conversation_history_shape :
    (∀ cache cid, dictGetTurns cache cid = [] → buildConversationHistory cache cid = none)
      ∧ (∀ cache cid, dictGetTurns cache cid ≠ [] →
          buildConversationHistory cache cid
            = some ((dictGetTurns cache cid).map turnEntries).flatten)
      ∧ buildConversationHistory twoTurnCache "conv"
          = some [JVal.arr [.str "a1", .null, .num 2], JVal.arr [.str "q1", .null, .num 1],
                  JVal.arr [.str "a2", .null, .num 2], JVal.arr [.str "q2", .null, .num 1]] := by
  refine ⟨?_, ?_, ?_⟩
  · intro cache cid h
    simp [buildConversationHistory, h]
  · intro cache cid h
    cases hT : dictGetTurns cache cid with
    | nil => exact absurd hT h
    | cons t rest =>
      simp only [buildConversationHistory, hT, List.isEmpty_cons, Bool.false_eq_true,
        if_false, historyFold_eq, List.nil_append]
      simp [turnEntries]
  · rfl

/-- C4 witness: the empty and non-empty cases applied to concrete caches. -/
theorem conversation_history_shape_witness :
    buildConversationHistory [] "missing" = none
      ∧ buildConversationHistory twoTurnCache "conv"
          = some ((dictGetTurns twoTurnCache "conv").map turnEntries).flatten :=
  ⟨conversation_history_shape.1 [] "missing" rfl,
   conversation_history_shape.2.1 twoTurnCache "conv" (by decide)⟩

/-- C5 (counterexample): a bundle missing `SAPISID` fails `validate_cookies`,
yet the manual cookie-import flow accepts and saves it (printing only a
warning), and client construction then issues a network request carrying
exactly that invalid bundle — so rejection before any network call is not
guaranteed. -/
theorem cookie_validation_not_enforced :
    validate_cookies invalidCookies = false
      ∧ runFileCookieEntryDecision invalidCookieFileContent = some invalidCookies
      ∧ clientInitFirstFetchCookieHeader invalidCookies = "SID=a; HSID=b; SSID=c; APISID=d" :=
  ⟨rfl, rfl, rfl⟩

theorem cookiesHasKey_eq_false (cookies : List (String × String)) (r : String)
    (h : ∀ kv ∈ cookies, kv.1 ≠ r) : cookiesHasKey cookies r = false := by
  rw [cookiesHasKey, List.any_eq_false]
  intro kv hkv
  simpa using h kv hkv

theorem validateCookiesGo_false (cookies : List (String × String)) (r : String)
    (hk : cookiesHasKey cookies r = false) :
    ∀ rs : List String, r ∈ rs → validateCookiesGo cookies rs = false := by
  intro rs
  induction rs with
  | nil => intro h; simp at h
  | cons r0 rest ih =>
    intro hmem
    rcases List.mem_cons.mp hmem with rfl | h2
    · simp [validateCookiesGo, hk]
    · by_cases h0 : cookiesHasKey cookies r0 <;> simp [validateCookiesGo, h0, ih h2]

/-- C5 (amended): `validate_cookies` returns `False` for every mapping
missing at least one of the five required cookies, and the interactive and
headless auth flows abort on that verdict before the bundle is used; the
manual cookie-import flow and direct client construction, however, proceed
without enforcing it (see the counterexample). -/
theorem cookie_validation_rejects_missing :
    (∀ cookies : List (String × String),
        (∃ r ∈ REQUIRED_COOKIES, ∀ kv ∈ cookies, kv.1 ≠ r) →
        validate_cookies cookies = false)
      ∧ (∀ cookies : List (String × String),
          validate_cookies cookies = false → runAuthFlowCookieGate cookies = none) := by
  constructor
  · intro cookies ⟨r, hr, hnone⟩
    exact validateCookiesGo_false cookies r (cookiesHasKey_eq_false cookies r hnone) _ hr
  · intro cookies h
    simp [runAuthFlowCookieGate, h]

/-- C5 witness: the amended statement applied to the concrete bundle missing
`SAPISID`. -/
theorem cookie_validation_rejects_missing_witness :
    validate_cookies invalidCookies = false
      ∧ runAuthFlowCookieGate invalidCookies = none :=
  ⟨cookie_validation_rejects_missing.1 invalidCookies ⟨"SAPISID", by decide, by decide⟩,
   cookie_validation_rejects_missing.2 invalidCookies
     (cookie_validation_rejects_missing.1 invalidCookies ⟨"SAPISID", by decide, by decide⟩)⟩

theorem decodeCookieFields_map (l : List (String × String)) :
    decodeCookieFields (l.map (fun kv => (kv.1, JVal.str kv.2))) = some l := by
  induction l with
  | nil => rfl
  | cons kv rest ih =>
    cases kv
    simp [decodeCookieFields, ih]

/-- C6: loading after saving restores a valid credential bundle exactly: the
cookies mapping, the CSRF token, the session id and the (integer-precision)
timestamp are all preserved. -/
theorem auth_tokens_round_trip (t : AuthTokens)
    (hvalid : validate_cookies t.cookies = true) :
    load_cached_tokens (some (save_tokens_to_cache t)) = some t
      ∧ (load_cached_tokens (some (save_tokens_to_cache t))).map (fun x => x.cookies)
          = some t.cookies
      ∧ (load_cached_tokens (some (save_tokens_to_cache t))).map (fun x => x.csrf_token)
          = some t.csrf_token
      ∧ (load_cached_tokens (some (save_tokens_to_cache t))).map (fun x => x.session_id)
          = some t.session_id := by
  have hmain : load_cached_tokens (some (save_tokens_to_cache t)) = some t := by
    cases t with
    | mk cookies csrf sid ea =>
      simp [load_cached_tokens, save_tokens_to_cache, AuthTokens.toDict, AuthTokens.fromDict,
        dictLookup, List.find?, decodeCookieFields_map, strOrDefault, intOrZero]
  exact ⟨hmain, by rw [hmain]; rfl, by rw [hmain]; rfl, by rw [hmain]; rfl⟩

/-- C6 witness: the round trip applied to a concrete valid bundle. -/
theorem auth_tokens_round_trip_witness :
    load_cached_tokens (some (save_tokens_to_cache sampleTokens)) = some sampleTokens :=
  (auth_tokens_round_trip sampleTokens rfl).1

theorem char_toNat_lt (c : Char) : c.toNat < 0x110000 := by
  have h := c.valid
  rcases h with h | ⟨_, h2⟩
  · exact Nat.lt_trans h (by norm_num)
  · exact h2

theorem utf8Bytes_lt (c : Char) : ∀ b ∈ utf8Bytes c, b < 256 := by
  intro b hb
  have hc := char_toNat_lt c
  by_cases h1 : c.toNat < 0x80
  · rw [utf8Bytes, if_pos h1] at hb
    simp at hb
    omega
  · by_cases h2 : c.toNat < 0x800
    · rw [utf8Bytes, if_neg h1, if_pos h2] at hb
      have hd : c.toNat / 64 ≤ 2047 / 64 := Nat.div_le_div_right (by omega)
      have hm : c.toNat % 64 < 64 := Nat.mod_lt _ (by norm_num)
      norm_num at hd
      simp at hb
      rcases hb with rfl | rfl <;> omega
    · by_cases h3 : c.toNat < 0x10000
      · rw [utf8Bytes, if_neg h1, if_neg h2, if_pos h3] at hb
        have hd : c.toNat / 4096 ≤ 65535 / 4096 := Nat.div_le_div_right (by omega)
        have hm2 : c.toNat / 64 % 64 < 64 := Nat.mod_lt _ (by norm_num)
        have hm : c.toNat % 64 < 64 := Nat.mod_lt _ (by norm_num)
        norm_num at hd
        simp at hb
        rcases hb with rfl | rfl | rfl <;> omega
      · rw [utf8Bytes, if_neg h1, if_neg h2, if_neg h3] at hb
        have hd : c.toNat / 262144 ≤ 1114111 / 262144 := Nat.div_le_div_right (by omega)
        have hm3 : c.toNat / 4096 % 64 < 64 := Nat.mod_lt _ (by norm_num)
        have hm2 : c.toNat / 64 % 64 < 64 := Nat.mod_lt _ (by norm_num)
        have hm : c.toNat % 64 < 64 := Nat.mod_lt _ (by norm_num)
        norm_num at hd
        simp at hb
        rcases hb with rfl | rfl | rfl | rfl <;> omega

theorem unreserved_toNat_lt (c : Char) (h : isUnreservedCh c = true) : c.toNat < 128 := by
  simp only [isUnreservedCh, Bool.or_eq_true, Bool.and_eq_true, decide_eq_true_eq,
    beq_iff_eq] at h
  rcases h with ((((⟨a, b⟩ | ⟨a, b⟩) | ⟨a, b⟩) | rfl) | rfl) | rfl | rfl <;>
    first
    | omega
    | decide

theorem unreserved_ne_percent (c : Char) (h : isUnreservedCh c = true) : ¬ c = '%' := by
  intro he
  rw [he] at h
  exact absurd h (by decide)

theorem utf8Bytes_small (c : Char) (h : c.toNat < 128) : utf8Bytes c = [c.toNat] := by
  rw [utf8Bytes, if_pos (by omega)]

theorem hexUpper_round : ∀ n, n < 16 → hexUpperVal (hexUpperDigit n) = n := by decide

theorem hexUpper_unreserved : ∀ n, n < 16 → isUnreservedCh (hexUpperDigit n) = true := by
  decide

theorem percentDecodeBytes_cons (c : Char) (rest : List Char) (h : ¬ c = '%') :
    percentDecodeBytes (c :: rest) = c.toNat :: percentDecodeBytes rest := by
  match rest with
  | [] => rfl
  | [h1] => rfl
  | h1 :: h2 :: rest2 => simp [percentDecodeBytes, h]

theorem decode_escBytes (bytes : List Nat) (rest : List Char)
    (hb : ∀ b ∈ bytes, b < 256) :
    percentDecodeBytes
        ((bytes.foldr
          (fun b acc => '%' :: hexUpperDigit (b / 16) :: hexUpperDigit (b % 16) :: acc) [])
          ++ rest)
      = bytes ++ percentDecodeBytes rest := by
  induction bytes with
  | nil => rfl
  | cons b bs ih =>
    have hblt : b < 256 := hb b (List.mem_cons_self _ _)
    have hdiv : b / 16 < 16 := by omega
    have hmod : b % 16 < 16 := Nat.mod_lt _ (by norm_num)
    rw [List.foldr_cons, List.cons_append, List.cons_append, List.cons_append]
    rw [percentDecodeBytes]
    simp only [beq_self_eq_true, if_pos]
    rw [hexUpper_round _ hdiv, hexUpper_round _ hmod]
    have hre : 16 * (b / 16) + b % 16 = b := by omega
    rw [hre, ih (fun x hx => hb x (List.mem_cons_of_mem _ hx))]
    simp

theorem decode_encodeChar (c : Char) (rest : List Char) :
    percentDecodeBytes (percentEncodeChar c ++ rest)
      = utf8Bytes c ++ percentDecodeBytes rest := by
  by_cases hu : isUnreservedCh c
  · rw [percentEncodeChar, if_pos hu, List.cons_append, List.nil_append,
      percentDecodeBytes_cons c rest (unreserved_ne_percent c hu),
      utf8Bytes_small c (unreserved_toNat_lt c hu)]
    rfl
  · rw [percentEncodeChar, if_neg hu]
    exact decode_escBytes (utf8Bytes c) rest (utf8Bytes_lt c)

/-- Percent-encoding is lossless: decoding the output recovers exactly the
UTF-8 bytes of the input. -/
theorem decode_percentEncode (s : String) :
    percentDecodeBytes (percentEncode s).data = utf8BytesOfString s := by
  show percentDecodeBytes (s.data.map percentEncodeChar).flatten
    = (s.data.map utf8Bytes).flatten
  induction s.data with
  | nil => rfl
  | cons c cs ih =>
    rw [List.map_cons, List.flatten_cons, List.map_cons, List.flatten_cons,
      decode_encodeChar, ih]

theorem encodeChar_alphabet (c : Char) :
    ∀ x ∈ percentEncodeChar c, isUnreservedCh x = true ∨ x = '%' := by
  intro x hx
  rw [percentEncodeChar] at hx
  split at hx
  · simp at hx
    subst hx
    left
    assumption
  · -- x comes from the `%XX` triples
    have hgen : ∀ bytes : List Nat, (∀ b ∈ bytes, b < 256) →
        x ∈ bytes.foldr
          (fun b acc => '%' :: hexUpperDigit (b / 16) :: hexUpperDigit (b % 16) :: acc) [] →
        isUnreservedCh x = true ∨ x = '%' := by
      intro bytes
      induction bytes with
      | nil => intro _ hmem; simp at hmem
      | cons b bs ih =>
        intro hlt hmem
        have hblt : b < 256 := hlt b (List.mem_cons_self _ _)
        rw [List.foldr_cons] at hmem
        rcases List.mem_cons.mp hmem with rfl | hmem2
        · exact Or.inr rfl
        rcases List.mem_cons.mp hmem2 with rfl | hmem3
        · exact Or.inl (hexUpper_unreserved _ (by omega))
        rcases List.mem_cons.mp hmem3 with rfl | hmem4
        · exact Or.inl (hexUpper_unreserved _ (Nat.mod_lt _ (by norm_num)))
        · exact ih (fun y hy => hlt y (List.mem_cons_of_mem _ hy)) hmem4
    exact hgen (utf8Bytes c) (utf8Bytes_lt c) hx

set_option maxHeartbeats 1000000 in
/-- C7: `_build_request_body` produces exactly the compact-JSON params
wrapped in the `[[[rpcId, paramsJson, null, "generic"]]]` envelope,
percent-encoded with every character either always-safe or `%`-escaped (in
particular `/` never survives), assembled as `f.req=<encoded>`, with
`&at=<encoded-token>` appended exactly when a CSRF token is known, and a
trailing `&`; the percent-encoding is lossless (decoding recovers the exact
UTF-8 bytes), and the compact dump inserts no whitespace between tokens. -/
theorem request_body_encoding :
    (∀ (rpcId : String) (params : JVal) (tok : String),
        buildRequestBody rpcId params tok
          = "f.req=" ++ percentEncode (jsonDump (fReqEnvelope rpcId params))
              ++ (if tok = "" then "" else "&at=" ++ percentEncode tok) ++ "&")
      ∧ (∀ (rpcId : String) (params : JVal) (tok : String),
          (buildRequestBody rpcId params tok).data.getLast? = some '&')
      ∧ (∀ (s : String), ∀ x ∈ (percentEncode s).data, isUnreservedCh x = true ∨ x = '%')
      ∧ (∀ s : String, '/' ∉ (percentEncode s).data)
      ∧ (∀ s : String, percentDecodeBytes (percentEncode s).data = utf8BytesOfString s)
      ∧ jsonDump (JVal.arr [.str "x", .null, .num 2]) = "[\"x\",null,2]" := by
  refine ⟨?_, ?_, ?_, ?_, decode_percentEncode, rfl⟩
  · intro rpcId params tok
    by_cases h : tok = "" <;> simp [buildRequestBody, h, String.append_assoc]
  · intro rpcId params tok
    have hd : (buildRequestBody rpcId params tok).data
        = (if tok = "" then "f.req=" ++ percentEncode (jsonDump (fReqEnvelope rpcId params))
           else "f.req=" ++ percentEncode (jsonDump (fReqEnvelope rpcId params))
             ++ "&at=" ++ percentEncode tok).data ++ ['&'] := rfl
    rw [hd, List.getLast?_concat]
  · intro s
    intro x hx
    have hx2 : x ∈ (s.data.map percentEncodeChar).flatten := hx
    rw [List.mem_flatten] at hx2
    obtain ⟨l, hl, hxl⟩ := hx2
    rw [List.mem_map] at hl
    obtain ⟨c, _, rfl⟩ := hl
    exact encodeChar_alphabet c x hxl
  · intro s hmem
    have hx2 : '/' ∈ (s.data.map percentEncodeChar).flatten := hmem
    rw [List.mem_flatten] at hx2
    obtain ⟨l, hl, hxl⟩ := hx2
    rw [List.mem_map] at hl
    obtain ⟨c, _, rfl⟩ := hl
    rcases encodeChar_alphabet c _ hxl with h | h
    · exact absurd h (by decide)
    · exact absurd h (by decide)

/-- C7 witness: the encoding properties applied to concrete inputs. -/
theorem request_body_encoding_witness :
    buildRequestBody "r1" (JVal.arr [.str "x", .null, .num 2]) "tk"
        = "f.req="
            ++ percentEncode (jsonDump (fReqEnvelope "r1" (JVal.arr [.str "x", .null, .num 2])))
            ++ (if ("tk" : String) = "" then "" else "&at=" ++ percentEncode "tk") ++ "&"
      ∧ (buildRequestBody "r1" (JVal.arr [.str "x", .null, .num 2]) "tk").data.getLast?
          = some '&'
      ∧ (isUnreservedCh 'a' = true ∨ 'a' = '%')
      ∧ '/' ∉ (percentEncode "a/b").data
      ∧ percentDecodeBytes (percentEncode "a/b").data = utf8BytesOfString "a/b" :=
  ⟨request_body_encoding.1 "r1" _ "tk",
   request_body_encoding.2.1 "r1" (JVal.arr [.str "x", .null, .num 2]) "tk",
   request_body_encoding.2.2.1 "a" 'a' (by decide),
   request_body_encoding.2.2.2.1 "a/b",
   request_body_encoding.2.2.2.2.1 "a/b"⟩

/-- With both flags set, no recovery runs: one attempt, no further calls. -/
theorem callRpcGo_TT (w : RpcWorld) (rpcId : String) (s : CallCounts) :
    (callRpcGo w rpcId true true s).2 = { s with attemptCount := s.attemptCount + 1 } := by
  rw [callRpcGo]
  cases attemptOutcome w rpcId s.attemptCount <;> simp

/-- With only `_retry` set, the refresh tier never runs and the reload tier
runs at most once. -/
theorem callRpcGo_TF (w : RpcWorld) (rpcId : String) (s : CallCounts) :
    (callRpcGo w rpcId true false s).2.refreshCount = s.refreshCount
      ∧ (callRpcGo w rpcId true false s).2.reloadCount ≤ s.reloadCount + 1
      ∧ (callRpcGo w rpcId true false s).2.attemptCount ≤ s.attemptCount + 2 := by
  rw [callRpcGo]
  cases attemptOutcome w rpcId s.attemptCount with
  | some r => simp
  | none =>
    by_cases hr : w.reloadOk s.reloadCount
    · simp [hr, callRpcGo_TT]
    · simp [hr]

/-- From a fresh call, each tier runs at most once and at most three
attempts are made. -/
theorem callRpcGo_FF (w : RpcWorld) (rpcId : String) (s : CallCounts) :
    (callRpcGo w rpcId false false s).2.refreshCount ≤ s.refreshCount + 1
      ∧ (callRpcGo w rpcId false false s).2.reloadCount ≤ s.reloadCount + 1
      ∧ (callRpcGo w rpcId false false s).2.attemptCount ≤ s.attemptCount + 3 := by
  rw [callRpcGo]
  cases attemptOutcome w rpcId s.attemptCount with
  | some r => simp
  | none =>
    by_cases hf : w.refreshOk s.refreshCount
    · have h := callRpcGo_TF w rpcId
        { s with attemptCount := s.attemptCount + 1, refreshCount := s.refreshCount + 1 }
      simp only [hf] at h ⊢
      simp at h ⊢
      omega
    · by_cases hr : w.reloadOk s.reloadCount
      · simp [hf, hr, callRpcGo_TT]
      · simp [hf, hr]

set_option maxHeartbeats 1000000 in
/-- C2: for one original call, the Tier 1 token refresh and the Tier 2
reload/headless recovery each run at most once and at most three attempts
are made; a first attempt failing with HTTP 401 followed by a successful
retried attempt returns the successful payload with the refresh routine
invoked exactly once; and when every attempt fails with an authentication
signal, the call terminates with the final authentication-expired failure
after at most the two bounded retries. -/
theorem call_rpc_bounded_recovery :
    (∀ (w : RpcWorld) (rpcId : String),
        (callRpc w rpcId).2.refreshCount ≤ 1
          ∧ (callRpc w rpcId).2.reloadCount ≤ 1
          ∧ (callRpc w rpcId).2.attemptCount ≤ 3)
      ∧ (∀ (w : RpcWorld) (rpcId : String) (v : JVal),
          (w.attempts 0).1 = 401 → w.refreshOk 0 = true →
          200 ≤ (w.attempts 1).1 → (w.attempts 1).1 < 300 →
          extractRpcResult (parseResponse (w.attempts 1).2) rpcId = .result v →
          callRpc w rpcId = (.ok v, ⟨2, 1, 0⟩))
      ∧ (∀ (w : RpcWorld) (rpcId : String),
          (∀ n, n < 3 → attemptOutcome w rpcId n = none) →
          (callRpc w rpcId).1 = .authExpired) := by
  refine ⟨?_, ?_, ?_⟩
  · intro w rpcId
    exact callRpcGo_FF w rpcId ⟨0, 0, 0⟩
  · intro w rpcId v h401 hrefresh hge hlt hextract
    have h0 : attemptOutcome w rpcId 0 = none := by
      rw [attemptOutcome, h401]
      norm_num
    have h1 : attemptOutcome w rpcId 1 = some (.ok v) := by
      rw [attemptOutcome, if_pos ⟨hge, hlt⟩, hextract]
    rw [callRpc, callRpcGo]
    simp only [h0]
    simp only [Bool.false_eq_true, if_false, hrefresh, if_true]
    rw [callRpcGo]
    simp [h1]
  · intro w rpcId h
    have eTT : ∀ s : CallCounts, s.attemptCount < 3 →
        callRpcGo w rpcId true true s
          = (.authExpired, { s with attemptCount := s.attemptCount + 1 }) := by
      intro s hs
      rw [callRpcGo, h s.attemptCount hs]
      simp
    have eTF : (callRpcGo w rpcId true false ⟨1, 1, 0⟩).1 = .authExpired := by
      rw [callRpcGo, h 1 (by omega)]
      by_cases hr : w.reloadOk 0
      · simp [hr, eTT ⟨2, 1, 1⟩ (by norm_num)]
      · simp [hr]
    rw [callRpc, callRpcGo, h 0 (by omega)]
    by_cases hf : w.refreshOk 0
    · simp only [Bool.false_eq_true, if_false, hf, if_true]
      exact eTF
    · by_cases hr : w.reloadOk 0
      · simp [hf, hr, eTT ⟨1, 1, 1⟩ (by norm_num)]
      · simp [hf, hr]

/-- C2 witness: the 401-then-success scenario on a concrete world returns
the payload with exactly one refresh, and the general bound applies. -/
theorem call_rpc_bounded_recovery_witness :
    callRpc worldRetry "nb" = (.ok (.num 5), ⟨2, 1, 0⟩)
      ∧ (callRpc worldRetry "nb").2.refreshCount ≤ 1 :=
  ⟨call_rpc_bounded_recovery.2.1 worldRetry "nb" (.num 5) rfl rfl (by decide)
      (by decide) rfl,
   (call_rpc_bounded_recovery.1 worldRetry "nb").1⟩

end NotebookLM
